import Mathlib

/-!
# DisasterMesh core: shallow embedding and verification

Shallow embedding of the routing/message-admission core of the DisasterMesh
library (`src/routing.rs`, `src/message_manager.rs`, `src/message.rs`,
`src/routing_control.rs`, `src/types.rs`), with theorems checking the
natural-language specification against it.

Modelling conventions:
* `SystemTime` instants and `Duration`s are natural numbers (an abstract
  monotone clock; the code only compares and subtracts them).
  `SystemTime::elapsed` / `duration_since` are partial (they fail when the
  reference instant lies in the future), modelled with `Option`.
* `u8` hop counts are `Nat` (the code only compares them, never computes, so
  no wrap-around can occur).
* `f32` link qualities are `ℚ`: the code only applies order comparisons to
  them, and the spec constrains them to the totally ordered range [0,1].
* `UserId`/`PeerId` are 32-byte values, `MessageId` an opaque key; byte = `Nat`.
* The `sled` store is a pair of key-value maps (the default tree that
  `MessageManager` calls `self.db`, and the `"seen"` tree it opens); fallible
  reads are `Except`.
-/

/-- Public-key hash identifying a user (`UserId(pub [u8; 32])` in `types.rs`). -/
structure UserId where
  bytes : List Nat
deriving DecidableEq, Repr

/-- Identifier for a peer device (`PeerId(pub [u8; 32])` in `types.rs`). -/
structure PeerId where
  bytes : List Nat
deriving DecidableEq, Repr

/-- Routing information for a single destination (`RouteInfo` in `routing.rs`). -/
structure RouteInfo where
  destination : UserId
  next_hop : PeerId
  hop_count : Nat
  last_updated : Nat
  link_quality : ℚ
deriving DecidableEq, Repr

/-- Result of `SystemTime::elapsed()` at instant `now` for a stamp `lu`:
`none` models the `Err` returned when the stamp lies in the future. -/
def sysElapsed (now lu : Nat) : Option Nat :=
  if lu ≤ now then some (now - lu) else none

/-- Checks `RouteInfo::is_expired`: `self.last_updated.elapsed().map(|e| e > max_age).unwrap_or(true)`. -/
def RouteInfo.is_expired (r : RouteInfo) (max_age : Nat) (now : Nat) : Bool :=
  ((sysElapsed now r.last_updated).map (fun e => decide (e > max_age))).getD true

/-- The routing engine: the `HashMap<UserId, RouteInfo>` is a partial map, plus
the `max_age` fixed at construction (`RoutingEngine` in `routing.rs`). -/
structure RoutingEngine where
  routes : UserId → Option RouteInfo
  max_age : Nat

/-- Builds `RoutingEngine::new(max_age)`: empty table. -/
def RoutingEngine.new (max_age : Nat) : RoutingEngine :=
  { routes := fun _ => none, max_age := max_age }

/-- Computes the `should_replace` condition of `RoutingEngine::update_route`
from the slot read for the destination:
`<slot>.map(|existing| hop_count < existing.hop_count ||
(hop_count == existing.hop_count && link_quality > existing.link_quality)).unwrap_or(true)`. -/
def replaceCond (s : Option RouteInfo) (hop_count : Nat) (link_quality : ℚ) :
    Bool :=
  (s.map (fun existing =>
      decide (hop_count < existing.hop_count) ||
      (decide (hop_count = existing.hop_count) &&
       decide (link_quality > existing.link_quality)))).getD true

/-- Reads `routes.get(&destination)` and applies `replaceCond` to it, exactly
as `RoutingEngine::update_route` computes `should_replace`. -/
def RoutingEngine.should_replace (e : RoutingEngine) (destination : UserId)
    (hop_count : Nat) (link_quality : ℚ) : Bool :=
  replaceCond (e.routes destination) hop_count link_quality

/-- Applies `RoutingEngine::update_route`; `now` is the value of
`SystemTime::now()` read inside the call. -/
def RoutingEngine.update_route (e : RoutingEngine) (destination : UserId)
    (next_hop : PeerId) (hop_count : Nat) (link_quality : ℚ) (now : Nat) :
    RoutingEngine :=
  if e.should_replace destination hop_count link_quality then
    { e with routes := fun d =>
        if d = destination then
          some { destination := destination, next_hop := next_hop,
                 hop_count := hop_count, last_updated := now,
                 link_quality := link_quality }
        else e.routes d }
  else e

/-- Reads `RoutingEngine::next_hop`: `routes.get(destination).map(|r| r.next_hop)`. -/
def RoutingEngine.next_hop (e : RoutingEngine) (destination : UserId) :
    Option PeerId :=
  (e.routes destination).map (fun r => r.next_hop)

/-- Runs `RoutingEngine::cleanup`: `routes.retain(|_, route| !route.is_expired(self.max_age))`. -/
def RoutingEngine.cleanup (e : RoutingEngine) (now : Nat) : RoutingEngine :=
  { e with routes := fun d =>
      (e.routes d).filter (fun r => ! r.is_expired e.max_age now) }

/-- Membership in the snapshot returned by `RoutingEngine::dump` (the table's
values, in arbitrary order). -/
def RoutingEngine.inDump (e : RoutingEngine) (r : RouteInfo) : Prop :=
  ∃ d, e.routes d = some r

/-- C1: `update_route(destination, next_hop, hop_count, link_quality)` inserts
when no entry exists; when an entry exists it replaces it iff the new hop count
is strictly smaller, or hop counts are equal and the new link quality is
strictly larger; otherwise the whole table is left unchanged (and the call is
total, so no error is raised). Slots other than `destination` are never
touched. -/
theorem c1_update_route_replacement_policy (e : RoutingEngine) (d : UserId)
    (nh : PeerId) (hc : Nat) (lq : ℚ) (now : Nat) :
    (e.routes d = none →
      (e.update_route d nh hc lq now).routes d =
        some { destination := d, next_hop := nh, hop_count := hc,
               last_updated := now, link_quality := lq }) ∧
    (∀ ex, e.routes d = some ex →
      ((hc < ex.hop_count ∨ (hc = ex.hop_count ∧ lq > ex.link_quality)) →
        (e.update_route d nh hc lq now).routes d =
          some { destination := d, next_hop := nh, hop_count := hc,
                 last_updated := now, link_quality := lq }) ∧
      (¬ (hc < ex.hop_count ∨ (hc = ex.hop_count ∧ lq > ex.link_quality)) →
        (e.update_route d nh hc lq now).routes = e.routes)) ∧
    (∀ d2, d2 ≠ d →
      (e.update_route d nh hc lq now).routes d2 = e.routes d2) := by
  refine ⟨?_, ?_, ?_⟩
  · intro hnone
    simp [RoutingEngine.update_route, RoutingEngine.should_replace, replaceCond, hnone]
  · intro ex hex
    constructor
    · intro hwin
      have hsr : e.should_replace d hc lq = true := by
        simp only [RoutingEngine.should_replace, replaceCond, hex, Option.map_some, Option.getD_some]
        rcases hwin with h | ⟨h1, h2⟩
        · simp [h]
        · simp [h1, h2]
      simp [RoutingEngine.update_route, hsr]
    · intro hlose
      push_neg at hlose
      have hsr : e.should_replace d hc lq = false := by
        simp only [RoutingEngine.should_replace, replaceCond, hex, Option.map_some, Option.getD_some]
        have hnotlt : ¬ hc < ex.hop_count := not_lt.mpr hlose.1
        by_cases heq : hc = ex.hop_count
        · have := hlose.2 heq
          simp [hnotlt, heq, not_lt.mpr this]
        · simp [hnotlt, heq]
      simp [RoutingEngine.update_route, hsr]
  · intro d2 hne
    by_cases hsr : e.should_replace d hc lq
    · simp [RoutingEngine.update_route, hsr, hne]
    · simp [RoutingEngine.update_route, hsr]

/-- C1 witness: inserting into an empty table lands the offered entry. -/
theorem c1_update_route_replacement_policy_witness :
    ((RoutingEngine.new 60).update_route (UserId.mk [1]) (PeerId.mk [2]) 3
        (4/5) 0).routes (UserId.mk [1]) =
      some { destination := UserId.mk [1], next_hop := PeerId.mk [2],
             hop_count := 3, last_updated := 0, link_quality := 4/5 } :=
  (c1_update_route_replacement_policy (RoutingEngine.new 60) (UserId.mk [1])
    (PeerId.mk [2]) 3 (4/5) 0).1 rfl

/-- C3 counterexample: starting from a table that already holds a strictly
better route for `u` (hop count 2) via `p1`, the call
`update_route(u, p2, hop=3, lq=0.8)` is discarded by the replacement policy,
so the immediately following `next_hop(u)` returns `Some(p1)`, not `Some(p2)`
as the claim (quantified over every table state) requires. -/
theorem c3_counterexample :
    ((((RoutingEngine.new 60).update_route (UserId.mk [0]) (PeerId.mk [1]) 2
        (4/5) 0).update_route (UserId.mk [0]) (PeerId.mk [2]) 3
        (4/5) 1).next_hop (UserId.mk [0]) = some (PeerId.mk [1])) ∧
    PeerId.mk [1] ≠ PeerId.mk [2] := by
  constructor
  · decide
  · decide

/-- C3 (amended): if the table holds no entry for `d` — in particular on a
freshly created engine — then `update_route(d, h1, hc, lq)` followed
immediately by `next_hop(d)` returns `Some(h1)`. -/
theorem c3_update_then_next_hop (e : RoutingEngine) (d : UserId) (h1 : PeerId)
    (hc : Nat) (lq : ℚ) (now : Nat) (hnone : e.routes d = none) :
    (e.update_route d h1 hc lq now).next_hop d = some h1 := by
  simp [RoutingEngine.next_hop, RoutingEngine.update_route,
    RoutingEngine.should_replace, replaceCond, hnone]

/-- C3 witness: on a fresh engine the inserted next hop is returned. -/
theorem c3_update_then_next_hop_witness :
    ((RoutingEngine.new 60).update_route (UserId.mk [0]) (PeerId.mk [1]) 3
        (4/5) 0).next_hop (UserId.mk [0]) = some (PeerId.mk [1]) :=
  c3_update_then_next_hop (RoutingEngine.new 60) (UserId.mk [0])
    (PeerId.mk [1]) 3 (4/5) 0 rfl

/-- Unfolds `cleanup` at one slot. -/
theorem cleanup_routes_eq (e : RoutingEngine) (now : Nat) (d : UserId) :
    (e.cleanup now).routes d =
      (e.routes d).filter (fun r => ! r.is_expired e.max_age now) := rfl

/-- Reduces `is_expired` for an entry whose stamp is not in the future. -/
theorem is_expired_of_past (r : RouteInfo) (max_age now : Nat)
    (hpast : r.last_updated ≤ now) :
    r.is_expired max_age now = decide (now - r.last_updated > max_age) := by
  simp [RouteInfo.is_expired, sysElapsed, hpast]

/-- C4: every entry stored with a stamp not in the future is in `dump()`
before `cleanup()` runs, and is in it after `cleanup()` runs exactly when its
age `now − last_updated` does not exceed the `max_age` configured at
construction (entries aged past `max_age` are removed, younger ones remain). -/
theorem c4_cleanup_age (e : RoutingEngine) (now : Nat) (d : UserId)
    (r : RouteInfo) (hr : e.routes d = some r)
    (hpast : r.last_updated ≤ now) :
    e.inDump r ∧
      ((e.cleanup now).inDump r ↔ now - r.last_updated ≤ e.max_age) := by
  refine ⟨⟨d, hr⟩, ?_, ?_⟩
  · rintro ⟨d2, hd2⟩
    rw [cleanup_routes_eq] at hd2
    rcases Option.filter_eq_some.mp hd2 with ⟨-, hkeep⟩
    rw [is_expired_of_past r e.max_age now hpast] at hkeep
    simpa using hkeep
  · intro hle
    refine ⟨d, ?_⟩
    rw [cleanup_routes_eq, hr]
    simp [is_expired_of_past r e.max_age now hpast, Nat.not_lt.mpr hle]

/-- C4 witness: an entry of age 1 with `max_age = 10` survives a cleanup. -/
theorem c4_cleanup_age_witness :
    ((RoutingEngine.new 10).update_route (UserId.mk [3]) (PeerId.mk [4]) 1
        1 5).inDump
      { destination := UserId.mk [3], next_hop := PeerId.mk [4],
        hop_count := 1, last_updated := 5, link_quality := 1 } ∧
    ((((RoutingEngine.new 10).update_route (UserId.mk [3]) (PeerId.mk [4]) 1
        1 5).cleanup 6).inDump
      { destination := UserId.mk [3], next_hop := PeerId.mk [4],
        hop_count := 1, last_updated := 5, link_quality := 1 } ↔
     6 - 5 ≤ 10) :=
  c4_cleanup_age
    ((RoutingEngine.new 10).update_route (UserId.mk [3]) (PeerId.mk [4]) 1 1 5)
    6 (UserId.mk [3])
    { destination := UserId.mk [3], next_hop := PeerId.mk [4],
      hop_count := 1, last_updated := 5, link_quality := 1 }
    (by decide) (by decide)

/-- C10: an entry whose `last_updated` stamp lies strictly in the future
relative to `now` makes `SystemTime::elapsed` fail, so `is_expired` defaults
to `true` and `cleanup()` removes the entry even though its age has not
exceeded `max_age`. -/
theorem c10_cleanup_removes_future_entry (e : RoutingEngine) (now : Nat)
    (d : UserId) (r : RouteInfo) (hr : e.routes d = some r)
    (hfuture : now < r.last_updated) :
    (e.cleanup now).routes d = none ∧ ¬ (e.cleanup now).inDump r := by
  have hexp : r.is_expired e.max_age now = true := by
    simp [RouteInfo.is_expired, sysElapsed, Nat.not_le.mpr hfuture]
  constructor
  · rw [cleanup_routes_eq, hr]
    simp [hexp]
  · rintro ⟨d2, hd2⟩
    rw [cleanup_routes_eq] at hd2
    rcases Option.filter_eq_some.mp hd2 with ⟨-, hkeep⟩
    rw [hexp] at hkeep
    simp at hkeep

/-- C10 witness: a route stamped at time 9 is removed by a cleanup at time 8
although `max_age` is 10. -/
theorem c10_cleanup_removes_future_entry_witness :
    ((((RoutingEngine.new 10).update_route (UserId.mk [5]) (PeerId.mk [6]) 2
        1 9).cleanup 8).routes (UserId.mk [5]) = none) ∧
    ¬ ((((RoutingEngine.new 10).update_route (UserId.mk [5]) (PeerId.mk [6]) 2
        1 9).cleanup 8).inDump
      { destination := UserId.mk [5], next_hop := PeerId.mk [6],
        hop_count := 2, last_updated := 9, link_quality := 1 }) :=
  c10_cleanup_removes_future_entry
    ((RoutingEngine.new 10).update_route (UserId.mk [5]) (PeerId.mk [6]) 2 1 9)
    8 (UserId.mk [5])
    { destination := UserId.mk [5], next_hop := PeerId.mk [6],
      hop_count := 2, last_updated := 9, link_quality := 1 }
    (by decide) (by decide)

/-- Arguments of one `update_route` call for a fixed destination: the offered
next hop, hop count, link quality, and the `SystemTime::now()` instant read
during the call. -/
structure Offer where
  next_hop : PeerId
  hop_count : Nat
  link_quality : ℚ
  time : Nat
deriving DecidableEq, Repr

/-- Table entry produced when an offer for destination `d` is applied. -/
def entryOf (d : UserId) (o : Offer) : RouteInfo :=
  { destination := d, next_hop := o.next_hop, hop_count := o.hop_count,
    last_updated := o.time, link_quality := o.link_quality }

/-- Applies one offered `update_route` call for destination `d`. -/
def applyOffer (d : UserId) (e : RoutingEngine) (o : Offer) : RoutingEngine :=
  e.update_route d o.next_hop o.hop_count o.link_quality o.time

/-- Replays a sequence of `update_route` calls for destination `d` from a
freshly constructed (empty) engine, with no intervening cleanup. -/
def replay (max_age : Nat) (d : UserId) (l : List Offer) : RoutingEngine :=
  l.foldl (applyOffer d) (RoutingEngine.new max_age)

/-- Ordering on offers: `a` is strictly better than `b` in the lexicographic
(hop_count, −link_quality) order. -/
def offerLt (a b : Offer) : Prop :=
  a.hop_count < b.hop_count ∨
    (a.hop_count = b.hop_count ∧ a.link_quality > b.link_quality)

/-- Ordering on offers: `a` is at least as good as `b` in the lexicographic
(hop_count, −link_quality) order. -/
def offerLe (a b : Offer) : Prop :=
  a.hop_count < b.hop_count ∨
    (a.hop_count = b.hop_count ∧ a.link_quality ≥ b.link_quality)

theorem offerLt_trans {a b c : Offer} (hab : offerLt a b) (hbc : offerLt b c) :
    offerLt a c := by
  unfold offerLt at *
  rcases hab with h | ⟨h1, h2⟩ <;> rcases hbc with g | ⟨g1, g2⟩
  · exact Or.inl (h.trans g)
  · left; omega
  · left; omega
  · exact Or.inr ⟨h1.trans g1, by linarith⟩

theorem offerLt_of_lt_of_le {a b c : Offer} (hab : offerLt a b)
    (hbc : offerLe b c) : offerLt a c := by
  unfold offerLt offerLe at *
  rcases hab with h | ⟨h1, h2⟩ <;> rcases hbc with g | ⟨g1, g2⟩
  · exact Or.inl (h.trans g)
  · left; omega
  · left; omega
  · exact Or.inr ⟨h1.trans g1, by linarith⟩

theorem not_offerLt_iff {a b : Offer} : ¬ offerLt a b ↔ offerLe b a := by
  unfold offerLt offerLe
  constructor
  · intro h
    push_neg at h
    rcases lt_or_eq_of_le h.1 with h1 | h1
    · exact Or.inl h1
    · exact Or.inr ⟨h1, h.2 h1.symm⟩
  · intro h hcon
    rcases h with h | ⟨h1, h2⟩ <;> rcases hcon with hc | ⟨hc1, hc2⟩
    · omega
    · omega
    · omega
    · linarith

/-- One `update_route` step, restricted to the slot of its destination. -/
def slotStep (d : UserId) (s : Option RouteInfo) (o : Offer) :
    Option RouteInfo :=
  if replaceCond s o.hop_count o.link_quality then some (entryOf d o) else s

theorem applyOffer_slot (d : UserId) (e : RoutingEngine) (o : Offer) :
    (applyOffer d e o).routes d = slotStep d (e.routes d) o := by
  unfold applyOffer RoutingEngine.update_route RoutingEngine.should_replace
    slotStep
  cases hc : replaceCond (e.routes d) o.hop_count o.link_quality <;>
    simp [hc, entryOf]

theorem applyOffer_other (d : UserId) (e : RoutingEngine) (o : Offer)
    (d2 : UserId) (hne : d2 ≠ d) :
    (applyOffer d e o).routes d2 = e.routes d2 := by
  unfold applyOffer RoutingEngine.update_route
  split <;> simp [hne]

theorem foldl_applyOffer_slot (d : UserId) (l : List Offer) (e : RoutingEngine) :
    (l.foldl (applyOffer d) e).routes d = l.foldl (slotStep d) (e.routes d) := by
  induction l generalizing e with
  | nil => rfl
  | cons o l ih =>
    simp only [List.foldl_cons]
    rw [ih, applyOffer_slot]

theorem foldl_applyOffer_other (d : UserId) (l : List Offer)
    (e : RoutingEngine) (d2 : UserId) (hne : d2 ≠ d) :
    (l.foldl (applyOffer d) e).routes d2 = e.routes d2 := by
  induction l generalizing e with
  | nil => rfl
  | cons o l ih =>
    simp only [List.foldl_cons]
    rw [ih, applyOffer_other d e o d2 hne]

theorem slotStep_none (d : UserId) (o : Offer) :
    slotStep d none o = some (entryOf d o) := rfl

theorem slotStep_isSome (d : UserId) (s : Option RouteInfo) (o : Offer) :
    (slotStep d s o).isSome := by
  cases s with
  | none => simp [slotStep, replaceCond]
  | some r =>
    simp only [slotStep]
    split <;> simp

theorem slotStep_of_lt {o b : Offer} (d : UserId) (h : offerLt o b) :
    slotStep d (some (entryOf d b)) o = some (entryOf d o) := by
  rcases h with h | ⟨h1, h2⟩
  · simp [slotStep, replaceCond, entryOf, h]
  · simp [slotStep, replaceCond, entryOf, h1, h2]

theorem slotStep_of_not_lt {o b : Offer} (d : UserId) (h : ¬ offerLt o b) :
    slotStep d (some (entryOf d b)) o = some (entryOf d b) := by
  rw [not_offerLt_iff] at h
  rcases h with h | ⟨h1, h2⟩
  · have g1 : ¬ o.hop_count < b.hop_count := by omega
    have g2 : ¬ o.hop_count = b.hop_count := by omega
    simp [slotStep, replaceCond, entryOf, g1, g2]
  · simp [slotStep, replaceCond, entryOf, h1.symm, Nat.not_lt.mpr h1.ge,
      not_lt.mpr h2]

theorem slotFold_none_iff (d : UserId) (l : List Offer) :
    l.foldl (slotStep d) none = none ↔ l = [] := by
  constructor
  · intro h
    cases l using List.reverseRecOn with
    | nil => rfl
    | append_singleton l y =>
      simp only [List.foldl_append, List.foldl_cons, List.foldl_nil] at h
      have hs := slotStep_isSome d (l.foldl (slotStep d) none) y
      rw [h] at hs
      simp at hs
  · rintro rfl; rfl

/-- Characterization of a replayed slot: whenever the fold of `update_route`
steps for destination `d` ends in `some r`, the offer sequence splits around a
winning offer `o` with `r = entryOf d o`, every earlier offer strictly worse
than `o`, and every later offer not strictly better than `o`. -/
theorem slotFold_some (d : UserId) (l : List Offer) (r : RouteInfo)
    (h : l.foldl (slotStep d) none = some r) :
    ∃ l1 o l2, l = l1 ++ o :: l2 ∧ r = entryOf d o ∧
      (∀ x ∈ l1, offerLt o x) ∧ (∀ x ∈ l2, offerLe o x) := by
  induction l using List.reverseRecOn generalizing r with
  | nil => simp at h
  | append_singleton l y ih =>
    simp only [List.foldl_append, List.foldl_cons, List.foldl_nil] at h
    cases hprev : l.foldl (slotStep d) none with
    | none =>
      have hl : l = [] := (slotFold_none_iff d l).mp hprev
      subst hl
      rw [hprev, slotStep_none] at h
      exact ⟨[], y, [], by simp, (Option.some_inj.mp h).symm, by simp, by simp⟩
    | some rp =>
      obtain ⟨l1, o, l2, hdec, hrp, h1, h2⟩ := ih rp hprev
      rw [hprev, hrp] at h
      by_cases hlt : offerLt y o
      · rw [slotStep_of_lt d hlt] at h
        refine ⟨l1 ++ o :: l2, y, [], by rw [hdec],
          (Option.some_inj.mp h).symm, ?_, by simp⟩
        intro x hx
        rcases List.mem_append.mp hx with hx | hx
        · exact offerLt_trans hlt (h1 x hx)
        · rcases List.mem_cons.mp hx with rfl | hx
          · exact hlt
          · exact offerLt_of_lt_of_le hlt (h2 x hx)
      · rw [slotStep_of_not_lt d hlt] at h
        refine ⟨l1, o, l2 ++ [y], by rw [hdec]; simp,
          (Option.some_inj.mp h).symm, h1, ?_⟩
        intro x hx
        rcases List.mem_append.mp hx with hx | hx
        · exact h2 x hx
        · rcases List.mem_singleton.mp hx with rfl
          exact not_offerLt_iff.mp hlt

/-- Converse: a split around an offer that beats everything before it and is
not beaten by anything after it forces the fold to end in exactly that offer's
entry. -/
theorem slotFold_complete (d : UserId) (l1 : List Offer) (o : Offer)
    (l2 : List Offer) (h1 : ∀ x ∈ l1, offerLt o x)
    (h2 : ∀ x ∈ l2, offerLe o x) :
    (l1 ++ o :: l2).foldl (slotStep d) none = some (entryOf d o) := by
  revert h2
  induction l2 using List.reverseRecOn with
  | nil =>
    intro h2
    simp only [List.foldl_append, List.foldl_cons, List.foldl_nil]
    cases hprev : l1.foldl (slotStep d) none with
    | none => exact slotStep_none d o
    | some rp =>
      obtain ⟨m1, b, m2, hdec, hrp, hb1, hb2⟩ := slotFold_some d l1 rp hprev
      have hbmem : b ∈ l1 := by rw [hdec]; simp
      rw [hrp]
      exact slotStep_of_lt d (h1 b hbmem)
  | append_singleton l2 y ih =>
    intro h2
    have hy : offerLe o y := h2 y (by simp)
    have hassoc : l1 ++ o :: (l2 ++ [y]) = (l1 ++ o :: l2) ++ [y] := by simp
    rw [hassoc, List.foldl_append, List.foldl_cons, List.foldl_nil,
      ih (fun x hx => h2 x (by simp [hx]))]
    exact slotStep_of_not_lt d (not_offerLt_iff.mpr hy)

/-- C2: replaying any sequence of `update_route` calls for a fixed destination
from an empty table leaves, at that destination, exactly the offered entry
whose (hop_count, −link_quality) pair is lexicographically smallest among all
offers, with the first of several lexicographic ties kept and never replaced
by a later tie; all other destinations stay empty. -/
theorem c2_replay_keeps_lex_min (max_age : Nat) (d : UserId) (l : List Offer)
    (r : RouteInfo) :
    ((replay max_age d l).routes d = some r ↔
      ∃ l1 o l2, l = l1 ++ o :: l2 ∧ r = entryOf d o ∧
        (∀ x ∈ l1, offerLt o x) ∧ (∀ x ∈ l2, offerLe o x)) ∧
    (∀ d2, d2 ≠ d → (replay max_age d l).routes d2 = none) := by
  have hslot : (replay max_age d l).routes d = l.foldl (slotStep d) none := by
    unfold replay
    rw [foldl_applyOffer_slot]
    rfl
  constructor
  · rw [hslot]
    constructor
    · exact slotFold_some d l r
    · rintro ⟨l1, o, l2, rfl, rfl, h1, h2⟩
      exact slotFold_complete d l1 o l2 h1 h2
  · intro d2 hne
    unfold replay
    rw [foldl_applyOffer_other d l _ d2 hne]
    rfl

/-- C2 witness: the spec's concrete scenario — offers (hop 3, lq 0.8) via p1,
then (hop 2, lq 0.8) via p2, then (hop 2, lq 0.5) via p3 — leaves the second
offer's entry in the table. -/
theorem c2_replay_keeps_lex_min_witness :
    (replay 60 (UserId.mk [0])
        [{ next_hop := PeerId.mk [1], hop_count := 3, link_quality := 4/5,
           time := 0 },
         { next_hop := PeerId.mk [2], hop_count := 2, link_quality := 4/5,
           time := 1 },
         { next_hop := PeerId.mk [3], hop_count := 2, link_quality := 1/2,
           time := 2 }]).routes (UserId.mk [0]) =
      some (entryOf (UserId.mk [0])
        { next_hop := PeerId.mk [2], hop_count := 2, link_quality := 4/5,
          time := 1 }) := by
  apply ((c2_replay_keeps_lex_min 60 (UserId.mk [0]) _ _).1).mpr
  refine ⟨[{ next_hop := PeerId.mk [1], hop_count := 3, link_quality := 4/5,
             time := 0 }],
          { next_hop := PeerId.mk [2], hop_count := 2, link_quality := 4/5,
            time := 1 },
          [{ next_hop := PeerId.mk [3], hop_count := 2, link_quality := 1/2,
             time := 2 }], rfl, rfl, ?_, ?_⟩
  · intro x hx
    rcases List.mem_singleton.mp hx with rfl
    exact Or.inl (by norm_num)
  · intro x hx
    rcases List.mem_singleton.mp hx with rfl
    exact Or.inr ⟨rfl, by norm_num⟩

/-- Unique identifier for a message (`MessageId(Uuid)` in `types.rs`): an
opaque 128-bit key, used only for equality and as a store key. -/
structure MessageId where
  val : Nat
deriving DecidableEq, Repr

/-- Control packets for the routing protocol (`RoutingControl` in
`routing_control.rs`): `Rreq`, `Rrep`, `Rerr`. `request_id` is a `u32` and the
hop counts are `u8`, embedded as bounded naturals. -/
inductive RoutingControl where
  | Rreq (origin : UserId) (destination : UserId) (request_id : Nat)
      (hop_count : Nat)
  | Rrep (origin : UserId) (destination : UserId) (hop_count : Nat)
  | Rerr (unreachable : List UserId)
deriving DecidableEq, Repr

/-- Content variants for messages (`MessageContent` in `message.rs`). -/
inductive MessageContent where
  | Text (s : String)
  | File (name : String) (data : List Nat)
  | Routing (ctrl : RoutingControl)
deriving DecidableEq, Repr

/-- Main envelope for all messages shared across the mesh (`Message` in
`message.rs`); `timestamp` is an instant and `ttl` a duration, both in
seconds. -/
structure Message where
  id : MessageId
  sender : UserId
  recipient : Option UserId
  content : MessageContent
  timestamp : Nat
  ttl : Nat
  hop_count : Nat
  signature : List Nat
deriving DecidableEq, Repr

/-- Builds `Message::new(sender, recipient, content)`: fresh id (the random
UUID allocation is modelled by the `id` argument), `timestamp = now`,
`ttl = Duration::from_secs(3600)`, `hop_count = 0`, empty signature. -/
def Message.new (id : MessageId) (sender : UserId) (recipient : Option UserId)
    (content : MessageContent) (now : Nat) : Message :=
  { id := id, sender := sender, recipient := recipient, content := content,
    timestamp := now, ttl := 3600, hop_count := 0, signature := [] }

/-- State of the `sled` store held by `MessageManager`: the default tree
(`self.db`, keyed by message id bytes) and the `"seen"` tree opened in
`MessageManager::new` (`self.seen`). -/
structure StoreState where
  db : MessageId → Option (List Nat)
  seen : MessageId → Option (List Nat)

/-- Fresh store, both trees empty. -/
def StoreState.empty : StoreState :=
  { db := fun _ => none, seen := fun _ => none }

/-- Runs `MessageManager::create_message` on the success path: builds
`Message::new(sender, recipient, content)` and executes
`self.db.insert(message.id.to_bytes(), bincode::serialize(&message)?)`.
`ser` is the external `bincode::serialize` collaborator for envelopes. -/
def create_message (ser : Message → List Nat) (s : StoreState)
    (id : MessageId) (sender : UserId) (recipient : Option UserId)
    (content : MessageContent) (now : Nat) : Message × StoreState :=
  let message := Message.new id sender recipient content now
  (message,
   { s with db := fun k =>
       if k = message.id then some (ser message) else s.db k })

/-- Runs `MessageManager::validate_message`: computes
`age = SystemTime::now().duration_since(msg.timestamp).unwrap_or(0)` and bails
with "Message expired" iff `age > msg.ttl`. It reads nothing but the envelope
and the clock and touches no store state (modelled as a pure function of the
two). -/
def validate_message (msg : Message) (now : Nat) : Except String Unit :=
  let age := (sysElapsed now msg.timestamp).getD 0
  if age > msg.ttl then Except.error "Message expired" else Except.ok ()

/-- Mirrors Rust's `Result::unwrap_or`. -/
def resultUnwrapOr {ε α : Type} (r : Except ε α) (dflt : α) : α :=
  match r with
  | Except.ok a => a
  | Except.error _ => dflt

/-- Runs `MessageManager::is_new_message` on the outcome of the store read:
`!self.db.contains_key(id.to_bytes()).unwrap_or(false)`. The argument is the
`Result<bool, sled::Error>` returned by `contains_key`. -/
def is_new_message (read : Except String Bool) : Bool :=
  ! resultUnwrapOr read false

/-- Reads `self.db.contains_key(id.to_bytes())` on a store whose read
succeeds. -/
def dbRead (s : StoreState) (id : MessageId) : Except String Bool :=
  Except.ok (s.db id).isSome

/-- Runs `MessageManager::mark_message_seen` on the success path: the code
executes `self.db.insert(id.to_bytes(), &[])?` — it writes the empty value
into the default (`db`) tree and never touches the `seen` tree. -/
def mark_message_seen (s : StoreState) (id : MessageId) : StoreState :=
  { s with db := fun k => if k = id then some [] else s.db k }

/-- Reduces the truncating `duration_since(..).unwrap_or(0)` to `Nat`
subtraction. -/
theorem sysElapsed_getD (now t : Nat) :
    (sysElapsed now t).getD 0 = now - t := by
  unfold sysElapsed
  split
  · rfl
  · simp; omega

/-- C5: `validate_message` fails with the expiry error iff
`age = now − timestamp` (treated as zero when `now < timestamp`) exceeds the
envelope's ttl; in every other case it returns `Ok(())`, performing no other
check; in particular an envelope stamped in the future always passes. It is a
pure function of the envelope and the clock, so no state changes. -/
theorem c5_validate_message_expiry (msg : Message) (now : Nat) :
    (validate_message msg now = Except.error "Message expired" ↔
      now - msg.timestamp > msg.ttl) ∧
    (validate_message msg now = Except.ok () ↔
      now - msg.timestamp ≤ msg.ttl) ∧
    (now ≤ msg.timestamp → validate_message msg now = Except.ok ()) := by
  unfold validate_message
  rw [sysElapsed_getD]
  refine ⟨?_, ?_, ?_⟩
  · by_cases h : now - msg.timestamp > msg.ttl <;> simp [h]
  · by_cases h : now - msg.timestamp > msg.ttl <;> simp [h] <;> omega
  · intro h
    have : ¬ now - msg.timestamp > msg.ttl := by omega
    simp [this]

/-- C5 witness: a message stamped at time 5 with the clock at 3 (skew) passes
validation, as the theorem's future-stamp clause demands. -/
theorem c5_validate_message_expiry_witness :
    validate_message
      (Message.new (MessageId.mk 0) (UserId.mk [1]) none
        (MessageContent.Text "x") 5) 3 = Except.ok () :=
  (c5_validate_message_expiry
    (Message.new (MessageId.mk 0) (UserId.mk [1]) none
      (MessageContent.Text "x") 5) 3).2.2 (by decide)

/-- C6: when the storage-layer read behind `is_new_message` fails,
`unwrap_or(false)` turns the error into `false` and the negation reports the
message as new — the contract fails open instead of returning false or
propagating the error. -/
theorem c6_is_new_message_fails_open (e : String) :
    is_new_message (Except.error e) = true := rfl

/-- C7: a successful `create_message` returns an envelope carrying the freshly
allocated id, `timestamp = now`, the 3600-second default ttl, `hop_count = 0`
and an empty signature; it persists the serialized envelope under that id;
afterwards `is_new_message` on the returned id reads `false`, while any id
never created (distinct from the fresh one and absent from the store) still
reads `true`. -/
theorem c7_create_message_contract (ser : Message → List Nat) (s : StoreState)
    (id : MessageId) (sender : UserId) (recipient : Option UserId)
    (content : MessageContent) (now : Nat) :
    ((create_message ser s id sender recipient content now).1 =
      { id := id, sender := sender, recipient := recipient,
        content := content, timestamp := now, ttl := 3600, hop_count := 0,
        signature := [] }) ∧
    ((create_message ser s id sender recipient content now).2.db id =
      some (ser (create_message ser s id sender recipient content now).1)) ∧
    (is_new_message (dbRead
        (create_message ser s id sender recipient content now).2
        (create_message ser s id sender recipient content now).1.id) =
      false) ∧
    (∀ id2, id2 ≠ id → s.db id2 = none →
      is_new_message (dbRead
        (create_message ser s id sender recipient content now).2 id2) =
      true) := by
  refine ⟨rfl, by simp [create_message, Message.new], ?_, ?_⟩
  · simp [create_message, Message.new, dbRead, is_new_message, resultUnwrapOr]
  · intro id2 hne h0
    simp [create_message, Message.new, dbRead, is_new_message,
      resultUnwrapOr, hne, h0]

/-- C7 witness: creating a message on an empty store, the returned id is known
and a distinct never-created id is still new. -/
theorem c7_create_message_contract_witness :
    is_new_message (dbRead
      (create_message (fun _ => [1]) StoreState.empty (MessageId.mk 0)
        (UserId.mk [1]) none (MessageContent.Text "hi") 7).2
      (create_message (fun _ => [1]) StoreState.empty (MessageId.mk 0)
        (UserId.mk [1]) none (MessageContent.Text "hi") 7).1.id) = false ∧
    is_new_message (dbRead
      (create_message (fun _ => [1]) StoreState.empty (MessageId.mk 0)
        (UserId.mk [1]) none (MessageContent.Text "hi") 7).2
      (MessageId.mk 1)) = true :=
  ⟨(c7_create_message_contract (fun _ => [1]) StoreState.empty
      (MessageId.mk 0) (UserId.mk [1]) none (MessageContent.Text "hi") 7).2.2.1,
   (c7_create_message_contract (fun _ => [1]) StoreState.empty
      (MessageId.mk 0) (UserId.mk [1]) none (MessageContent.Text "hi") 7).2.2.2
     (MessageId.mk 1) (by decide) rfl⟩

/-- C8 divergence: `mark_message_seen` executes
`self.db.insert(id.to_bytes(), &[])` — it writes the empty value into the
default tree (the messages namespace that `create_message` populates),
overwriting the serialized envelope stored there, and never touches the
`seen` tree. `bincode::serialize` of an envelope is never the empty byte
string (it contains at least the 16 id bytes), which the hypothesis on `ser`
records. -/
theorem c8_mark_seen_clobbers_envelope (ser : Message → List Nat)
    (s : StoreState) (id : MessageId) (sender : UserId)
    (recipient : Option UserId) (content : MessageContent) (now : Nat)
    (hser : ser (Message.new id sender recipient content now) ≠ []) :
    ((mark_message_seen
        (create_message ser s id sender recipient content now).2 id).db id =
      some []) ∧
    ((mark_message_seen
        (create_message ser s id sender recipient content now).2 id).db id ≠
      (create_message ser s id sender recipient content now).2.db id) ∧
    ((mark_message_seen
        (create_message ser s id sender recipient content now).2 id).seen =
      (create_message ser s id sender recipient content now).2.seen) := by
  refine ⟨by simp [mark_message_seen], ?_, rfl⟩
  simp only [mark_message_seen, create_message, Message.new, if_pos rfl]
  intro hcon
  exact hser ((Option.some_inj.mp hcon).symm)

/-- C8 witness: with a serializer returning a nonempty encoding, marking the
created message's id as seen replaces the stored envelope by the empty value
while the `seen` tree stays untouched. -/
theorem c8_mark_seen_clobbers_envelope_witness :
    ((mark_message_seen
        (create_message (fun _ => [1]) StoreState.empty (MessageId.mk 0)
          (UserId.mk [1]) none (MessageContent.Text "hi") 7).2
        (MessageId.mk 0)).db (MessageId.mk 0) = some []) ∧
    ((mark_message_seen
        (create_message (fun _ => [1]) StoreState.empty (MessageId.mk 0)
          (UserId.mk [1]) none (MessageContent.Text "hi") 7).2
        (MessageId.mk 0)).db (MessageId.mk 0) ≠
      (create_message (fun _ => [1]) StoreState.empty (MessageId.mk 0)
        (UserId.mk [1]) none (MessageContent.Text "hi") 7).2.db
        (MessageId.mk 0)) ∧
    ((mark_message_seen
        (create_message (fun _ => [1]) StoreState.empty (MessageId.mk 0)
          (UserId.mk [1]) none (MessageContent.Text "hi") 7).2
        (MessageId.mk 0)).seen =
      (create_message (fun _ => [1]) StoreState.empty (MessageId.mk 0)
        (UserId.mk [1]) none (MessageContent.Text "hi") 7).2.seen) :=
  c8_mark_seen_clobbers_envelope (fun _ => [1]) StoreState.empty
    (MessageId.mk 0) (UserId.mk [1]) none (MessageContent.Text "hi") 7
    (by simp)

/-- Serializes a `u8` under bincode 1.x defaults: the byte itself. -/
def encodeU8 (n : Nat) : List Nat := [n]

/-- Serializes a `u32` under bincode 1.x defaults: four bytes, fixed-width,
little-endian. -/
def encodeU32 (n : Nat) : List Nat :=
  [n % 256, n / 256 % 256, n / 65536 % 256, n / 16777216 % 256]

/-- Serializes a `u64` (bincode's sequence-length word): eight bytes,
fixed-width, little-endian. -/
def encodeU64 (n : Nat) : List Nat :=
  [n % 256, n / 256 % 256, n / 65536 % 256, n / 16777216 % 256,
   n / 4294967296 % 256, n / 1099511627776 % 256,
   n / 281474976710656 % 256, n / 72057594037927936 % 256]

/-- Serializes a `UserId([u8; 32])`: the 32 raw bytes, no length prefix. -/
def encodeUserId (u : UserId) : List Nat := u.bytes

/-- Serializes the elements of a `Vec<UserId>` in order. -/
def encodeUserIds : List UserId → List Nat
  | [] => []
  | u :: us => encodeUserId u ++ encodeUserIds us

/-- Reads one byte. -/
def readU8 : List Nat → Option (Nat × List Nat)
  | [] => none
  | b :: rest => some (b, rest)

/-- Reads a little-endian fixed-width `u32`. -/
def readU32 : List Nat → Option (Nat × List Nat)
  | b0 :: b1 :: b2 :: b3 :: rest =>
      some (b0 + 256 * b1 + 65536 * b2 + 16777216 * b3, rest)
  | _ => none

/-- Reads a little-endian fixed-width `u64`. -/
def readU64 : List Nat → Option (Nat × List Nat)
  | b0 :: b1 :: b2 :: b3 :: b4 :: b5 :: b6 :: b7 :: rest =>
      some (b0 + 256 * b1 + 65536 * b2 + 16777216 * b3 +
        4294967296 * b4 + 1099511627776 * b5 + 281474976710656 * b6 +
        72057594037927936 * b7, rest)
  | _ => none

/-- Reads the 32 raw bytes of a `UserId`. -/
def readUserId (bs : List Nat) : Option (UserId × List Nat) :=
  if 32 ≤ bs.length then some (UserId.mk (bs.take 32), bs.drop 32) else none

/-- Reads `n` consecutive `UserId`s. -/
def readUserIds : Nat → List Nat → Option (List UserId × List Nat)
  | 0, bs => some ([], bs)
  | n + 1, bs =>
    match readUserId bs with
    | none => none
    | some (u, rest) =>
      match readUserIds n rest with
      | none => none
      | some (us, rest2) => some (u :: us, rest2)

/-- Serializes a `RoutingControl` under bincode 1.x defaults (the crate's
externally tagged derive): a `u32` little-endian variant index (`Rreq` = 0,
`Rrep` = 1, `Rerr` = 2) followed by the fields in declaration order;
`Vec<UserId>` is a `u64` element count followed by the elements. -/
def RoutingControl.encode : RoutingControl → List Nat
  | RoutingControl.Rreq origin destination request_id hop_count =>
      encodeU32 0 ++ encodeUserId origin ++ encodeUserId destination ++
        encodeU32 request_id ++ encodeU8 hop_count
  | RoutingControl.Rrep origin destination hop_count =>
      encodeU32 1 ++ encodeUserId origin ++ encodeUserId destination ++
        encodeU8 hop_count
  | RoutingControl.Rerr unreachable =>
      encodeU32 2 ++ encodeU64 unreachable.length ++
        encodeUserIds unreachable

/-- Deserializes a `RoutingControl` from a byte prefix, variant index first,
failing on truncated input or an unknown index. -/
def RoutingControl.decode (bs : List Nat) : Option RoutingControl :=
  match readU32 bs with
  | none => none
  | some (tag, r0) =>
    match tag with
    | 0 =>
      match readUserId r0 with
      | none => none
      | some (o, r1) =>
        match readUserId r1 with
        | none => none
        | some (dst, r2) =>
          match readU32 r2 with
          | none => none
          | some (rid, r3) =>
            match readU8 r3 with
            | none => none
            | some (h, _) => some (RoutingControl.Rreq o dst rid h)
    | 1 =>
      match readUserId r0 with
      | none => none
      | some (o, r1) =>
        match readUserId r1 with
        | none => none
        | some (dst, r2) =>
          match readU8 r2 with
          | none => none
          | some (h, _) => some (RoutingControl.Rrep o dst h)
    | 2 =>
      match readU64 r0 with
      | none => none
      | some (n, r1) =>
        match readUserIds n r1 with
        | none => none
        | some (us, _) => some (RoutingControl.Rerr us)
    | _ => none

/-- Type invariant of the Rust value carried into the `Nat` embedding: ids are
32 bytes, `request_id` fits a `u32`, hop counts fit a `u8`, and the
unreachable list's length fits bincode's `u64` length word. -/
def UserId.wf (u : UserId) : Prop := u.bytes.length = 32

/-- Well-formedness of a `RoutingControl` value as a Rust value. -/
def RoutingControl.wf : RoutingControl → Prop
  | RoutingControl.Rreq o dst rid h =>
      o.wf ∧ dst.wf ∧ rid < 4294967296 ∧ h < 256
  | RoutingControl.Rrep o dst h => o.wf ∧ dst.wf ∧ h < 256
  | RoutingControl.Rerr us =>
      (∀ u ∈ us, u.wf) ∧ us.length < 18446744073709551616

theorem readU8_encodeU8 (n : Nat) (rest : List Nat) :
    readU8 (encodeU8 n ++ rest) = some (n, rest) := rfl

theorem readU8_encodeU8_nil (n : Nat) : readU8 (encodeU8 n) = some (n, []) :=
  rfl

theorem readU32_encodeU32 (n : Nat) (h : n < 4294967296) (rest : List Nat) :
    readU32 (encodeU32 n ++ rest) = some (n, rest) := by
  simp only [encodeU32, List.cons_append, List.nil_append, readU32,
    Option.some_inj, Prod.mk.injEq]
  exact ⟨by omega, trivial⟩

theorem readU64_encodeU64 (n : Nat) (h : n < 18446744073709551616)
    (rest : List Nat) : readU64 (encodeU64 n ++ rest) = some (n, rest) := by
  simp only [encodeU64, List.cons_append, List.nil_append, readU64,
    Option.some_inj, Prod.mk.injEq]
  exact ⟨by omega, trivial⟩

theorem readUserId_encodeUserId (u : UserId) (h : u.wf) (rest : List Nat) :
    readUserId (encodeUserId u ++ rest) = some (u, rest) := by
  unfold UserId.wf at h
  unfold readUserId encodeUserId
  rw [if_pos (by simp [h])]
  rw [List.take_left' h, List.drop_left' h]

theorem readUserIds_encodeUserIds (l : List UserId) (h : ∀ u ∈ l, u.wf)
    (rest : List Nat) :
    readUserIds l.length (encodeUserIds l ++ rest) = some (l, rest) := by
  induction l with
  | nil => simp [readUserIds, encodeUserIds]
  | cons u us ih =>
    simp only [encodeUserIds, List.length_cons, List.append_assoc]
    rw [readUserIds, readUserId_encodeUserId u (h u (by simp))]
    simp [ih (fun x hx => h x (by simp [hx]))]

theorem readUserIds_encodeUserIds_nil (l : List UserId) (h : ∀ u ∈ l, u.wf) :
    readUserIds l.length (encodeUserIds l) = some (l, []) := by
  have := readUserIds_encodeUserIds l h []
  simpa using this

/-- C9: encoding any well-formed `ControlPacket` — `RouteRequest`,
`RouteReply`, or `RouteError` with an arbitrary (empty or non-empty)
unreachable list — through the bincode serialization boundary and decoding
the bytes yields the original value, same variant and same fields. -/
theorem c9_control_packet_roundtrip (p : RoutingControl) (h : p.wf) :
    RoutingControl.decode (RoutingControl.encode p) = some p := by
  cases p with
  | Rreq o dst rid hc =>
    obtain ⟨h1, h2, h3, -⟩ := h
    simp [RoutingControl.encode, RoutingControl.decode, List.append_assoc,
      readU32_encodeU32 0 (by norm_num), readU32_encodeU32 rid h3,
      readUserId_encodeUserId o h1, readUserId_encodeUserId dst h2,
      readU8_encodeU8, readU8_encodeU8_nil]
  | Rrep o dst hc =>
    obtain ⟨h1, h2, -⟩ := h
    simp [RoutingControl.encode, RoutingControl.decode, List.append_assoc,
      readU32_encodeU32 1 (by norm_num),
      readUserId_encodeUserId o h1, readUserId_encodeUserId dst h2,
      readU8_encodeU8, readU8_encodeU8_nil]
  | Rerr us =>
    obtain ⟨h1, h2⟩ := h
    simp [RoutingControl.encode, RoutingControl.decode, List.append_assoc,
      readU32_encodeU32 2 (by norm_num), readU64_encodeU64 us.length h2,
      readUserIds_encodeUserIds_nil us h1]

/-- C9 witness: concrete round trips for `Rreq`, `Rrep`, and `Rerr` with an
empty and a non-empty unreachable list. -/
theorem c9_control_packet_roundtrip_witness :
    (RoutingControl.decode (RoutingControl.encode
      (RoutingControl.Rreq (UserId.mk (List.replicate 32 1))
        (UserId.mk (List.replicate 32 2)) 42 0)) =
      some (RoutingControl.Rreq (UserId.mk (List.replicate 32 1))
        (UserId.mk (List.replicate 32 2)) 42 0)) ∧
    (RoutingControl.decode (RoutingControl.encode
      (RoutingControl.Rrep (UserId.mk (List.replicate 32 1))
        (UserId.mk (List.replicate 32 2)) 3)) =
      some (RoutingControl.Rrep (UserId.mk (List.replicate 32 1))
        (UserId.mk (List.replicate 32 2)) 3)) ∧
    (RoutingControl.decode (RoutingControl.encode
      (RoutingControl.Rerr [])) = some (RoutingControl.Rerr [])) ∧
    (RoutingControl.decode (RoutingControl.encode
      (RoutingControl.Rerr [UserId.mk (List.replicate 32 1),
        UserId.mk (List.replicate 32 2)])) =
      some (RoutingControl.Rerr [UserId.mk (List.replicate 32 1),
        UserId.mk (List.replicate 32 2)])) :=
  ⟨c9_control_packet_roundtrip _ ⟨rfl, rfl, by norm_num, by norm_num⟩,
   c9_control_packet_roundtrip _ ⟨rfl, rfl, by norm_num⟩,
   c9_control_packet_roundtrip _ ⟨by simp, by norm_num⟩,
   c9_control_packet_roundtrip _ ⟨by simp [UserId.wf], by norm_num⟩⟩

/-- C6 witness: a concrete failed read reports the message as new. -/
theorem c6_is_new_message_fails_open_witness :
    is_new_message (Except.error "sled io error") = true :=
  c6_is_new_message_fails_open "sled io error"
